import Mathlib

/-!
Verification of `.github/scripts/weekly-pr-report.py` (weekly PR report script).

The script is shallowly embedded below:
* the time-window resolver `get_report_range` is modelled over instants given
  as microseconds of KST wall-clock time since a Monday 00:00:00.000000 epoch
  (the proleptic epoch 0001-01-01 is a Monday, matching Python's `weekday()`);
  KST is a fixed-offset zone, so `datetime.replace`/`timedelta` arithmetic is
  plain arithmetic on that count;
* the aggregation (`aggregate`), ranking (`ranking`) and pagination
  (`_paginate_search`, here `paginate_search`) functions are translated
  directly; Python `defaultdict(int)` counters with insertion order are
  association lists updated by `bump`, and the stable
  `sorted(d.items(), key=lambda x: -x[1])` is the stable insertion sort
  `sortedDesc` (any two stable sorts under the same key agree pointwise);
* Python `str` comparison (lexicographic on code points) is `strLe`;
* the environment/exit-code behaviour of `main`, `graphql` and `send_slack`
  is modelled by `mainModel`, which records network calls as events.
-/

namespace WeeklyReport

/-! ## Time-window resolver (`get_report_range`, source lines 41-49) -/

def usPerSecond : Nat := 1000000

def usPerMinute : Nat := 60 * usPerSecond

def usPerHour : Nat := 60 * usPerMinute

def usPerDay : Nat := 24 * usPerHour

/-- Constant `REPORT_HOUR = 16` (source line 18). -/
def REPORT_HOUR : Nat := 16

/-- Python `datetime.weekday()`: 0 = Monday .. 6 = Sunday.  The epoch of the
instant encoding is a Monday, so this is the day-index mod 7. -/
def weekday (t : Nat) : Nat := (t / usPerDay) % 7

def hourOf (t : Nat) : Nat := (t % usPerDay) / usPerHour

def minuteOf (t : Nat) : Nat := (t % usPerHour) / usPerMinute

def secondOf (t : Nat) : Nat := (t % usPerMinute) / usPerSecond

def microsecondOf (t : Nat) : Nat := t % usPerSecond

/-- Source line 45, `days_until_friday = (4 - now_kst.weekday()) % 7`; Python
`%` on a positive modulus is the always-nonnegative remainder, i.e. `Int.emod`. -/
def days_until_friday (t : Nat) : Nat :=
  (((4 : Int) - (weekday t : Int)) % 7).toNat

/-- Source line 46, `now_kst.replace(hour=REPORT_HOUR, minute=0, second=0, microsecond=0)`:
keep the calendar date, set the time of day to 16:00:00.000000. -/
def replaceReportHour (t : Nat) : Nat :=
  (t / usPerDay) * usPerDay + REPORT_HOUR * usPerHour

/-- Local `this_friday` (source line 46). -/
def this_friday (t : Nat) : Nat :=
  replaceReportHour t + days_until_friday t * usPerDay

/-- Function `get_report_range` (source lines 41-49): returns
`(last_friday, this_friday)` with `last_friday = this_friday - timedelta(days=7)`.
The results are integers so that the 7-day subtraction is exact timeline
arithmetic. -/
def get_report_range (t : Nat) : Int × Int :=
  ((this_friday t : Int) - 7 * (usPerDay : Int), (this_friday t : Int))

/-- C3: for every instant, the window spans exactly 7 days and its end falls on
Friday (weekday 4) at 16:00:00.000000. -/
theorem report_range_span_and_anchor (t : Nat) :
    (get_report_range t).2 - (get_report_range t).1 = 7 * (usPerDay : Int) ∧
    weekday (this_friday t) = 4 ∧
    hourOf (this_friday t) = REPORT_HOUR ∧
    minuteOf (this_friday t) = 0 ∧
    secondOf (this_friday t) = 0 ∧
    microsecondOf (this_friday t) = 0 := by
  unfold get_report_range this_friday replaceReportHour days_until_friday weekday
    hourOf minuteOf secondOf microsecondOf REPORT_HOUR usPerDay usPerHour usPerMinute
    usPerSecond
  omega

/-- C4: on a Friday, `days_until_friday` is 0 and the window's end is that
same day's date at 16:00 KST — identical for any two instants on the same
Friday (before or after 16:00), so the end may lie strictly in the past. -/
theorem report_range_friday_same_day (t t' : Nat)
    (hf : weekday t = 4) (hd : t' / usPerDay = t / usPerDay) :
    days_until_friday t = 0 ∧
    (get_report_range t).2 = ((t / usPerDay) * usPerDay + REPORT_HOUR * usPerHour : Nat) ∧
    (get_report_range t').2 = (get_report_range t).2 ∧
    ∃ s : Nat, weekday s = 4 ∧ (get_report_range s).2 < (s : Int) := by
  refine ⟨?_, ?_, ?_, (4 * usPerDay + 17 * usPerHour), ?_, ?_⟩ <;>
    simp only [get_report_range, this_friday, replaceReportHour, days_until_friday,
      weekday, REPORT_HOUR, usPerDay, usPerHour, usPerMinute, usPerSecond] at * <;>
    omega

/-- Witness for C4 at a concrete Friday: 10:00 and 20:00 of day index 4
(the epoch Monday's first Friday) give `days_until_friday = 0` and the same
16:00 end. -/
theorem report_range_friday_same_day_witness :
    days_until_friday (4 * usPerDay + 10 * usPerHour) = 0 ∧
    (get_report_range (4 * usPerDay + 10 * usPerHour)).2 =
      ((4 * usPerDay + 10 * usPerHour) / usPerDay * usPerDay +
        REPORT_HOUR * usPerHour : Nat) ∧
    (get_report_range (4 * usPerDay + 20 * usPerHour)).2 =
      (get_report_range (4 * usPerDay + 10 * usPerHour)).2 ∧
    ∃ s : Nat, weekday s = 4 ∧ (get_report_range s).2 < (s : Int) :=
  report_range_friday_same_day (4 * usPerDay + 10 * usPerHour)
    (4 * usPerDay + 20 * usPerHour) (by decide) (by decide)

/-! ## Aggregation (`aggregate`, source lines 122-158) -/

/-- Python lexicographic `<=` on code-point lists. -/
def charListLe : List Char → List Char → Bool
  | [], _ => true
  | _ :: _, [] => false
  | a :: as, b :: bs =>
    if a.toNat < b.toNat then true
    else if b.toNat < a.toNat then false
    else charListLe as bs

/-- Python string `<=` (lexicographic by Unicode code point). -/
def strLe (a b : String) : Bool := charListLe a.data b.data

/-- One node of the "created" query (source lines 64-69): repository name and
optional author login. -/
structure CreatedPR where
  repo : String
  author : Option String
deriving DecidableEq

/-- One nested review node (source lines 90-94): optional author login,
optional `createdAt` timestamp string, and `comments.totalCount`. -/
structure Review where
  author : Option String
  createdAt : Option String
  comment_count : Nat
deriving DecidableEq

/-- One node of the "updated" query (source lines 86-96): repository name and
nested review nodes (`pr.get("reviews", {}).get("nodes", [])`, absent → `[]`). -/
structure ReviewPR where
  repo : String
  reviews : List Review
deriving DecidableEq

/-- Python `defaultdict(int)` counter update `d[k] += v`: keys keep first-insertion
order, an existing key is updated in place, a new key is appended with
initial value `0 + v`. -/
def bump (m : List (String × Nat)) (k : String) (v : Nat) : List (String × Nat) :=
  match m with
  | [] => [(k, v)]
  | (k', v') :: rest => if k' = k then (k', v' + v) :: rest else (k', v') :: bump rest k v

/-- Stable insertion (keeps the inserted element before existing elements of
equal count; used right-to-left, so the earlier-inserted key wins ties). -/
def insertDesc (x : String × Nat) : List (String × Nat) → List (String × Nat)
  | [] => [x]
  | y :: ys => if x.2 < y.2 then y :: insertDesc x ys else x :: y :: ys

/-- Source line 150, `desc = lambda d: dict(sorted(d.items(), key=lambda x: -x[1]))`:
a stable sort, descending by count, ties in insertion order.  Python's
`sorted` is stable; `insertDesc` folded from the right is the same stable sort. -/
def sortedDesc (m : List (String × Nat)) : List (String × Nat) :=
  m.foldr insertDesc []

/-- Python `sum(d.values())`. -/
def sumVals (m : List (String × Nat)) : Nat := (m.map Prod.snd).sum

/-- Loop body for created PRs (source lines 130-134): bump the repo counter and
the author counter (missing author → `"ghost"`). -/
def procCreated (acc : List (String × Nat) × List (String × Nat)) (pr : CreatedPR) :
    List (String × Nat) × List (String × Nat) :=
  (bump acc.1 pr.repo 1, bump acc.2 (pr.author.getD "ghost") 1)

/-- Loop body for one review (source lines 142-148): `created_at =
review.get("createdAt", "")`; skip unless `since_str <= created_at <=
until_str`; otherwise bump the repo and reviewer comment counters by
`comments.totalCount` (missing reviewer → `"ghost"`). -/
def procReview (since_str until_str repo : String)
    (acc : List (String × Nat) × List (String × Nat)) (review : Review) :
    List (String × Nat) × List (String × Nat) :=
  let created_at := review.createdAt.getD ""
  if strLe since_str created_at && strLe created_at until_str then
    let reviewer := review.author.getD "ghost"
    (bump acc.1 repo review.comment_count, bump acc.2 reviewer review.comment_count)
  else acc

/-- Loop body for one review-bearing PR (source lines 139-148). -/
def procUpdated (since_str until_str : String)
    (acc : List (String × Nat) × List (String × Nat)) (pr : ReviewPR) :
    List (String × Nat) × List (String × Nat) :=
  pr.reviews.foldl (procReview since_str until_str pr.repo) acc

/-- Result record of `aggregate` (source lines 151-158). -/
structure AggregateStats where
  total_prs : Nat
  total_comments : Nat
  pr_by_repo : List (String × Nat)
  pr_by_person : List (String × Nat)
  comments_by_repo : List (String × Nat)
  comments_by_person : List (String × Nat)
deriving DecidableEq

/-- Function `aggregate(created_prs, updated_prs, since, until)` (source lines 122-158).
`since_str`/`until_str` are the `to_github_date` renderings of the window bounds
computed at lines 137-138; the aggregation logic only ever compares them as
strings, so the embedding takes the rendered strings directly. -/
def aggregate (created_prs : List CreatedPR) (updated_prs : List ReviewPR)
    (since_str until_str : String) : AggregateStats :=
  let prCounts := created_prs.foldl procCreated ([], [])
  let commentCounts := updated_prs.foldl (procUpdated since_str until_str) ([], [])
  { total_prs := sumVals prCounts.1
    total_comments := sumVals commentCounts.1
    pr_by_repo := sortedDesc prCounts.1
    pr_by_person := sortedDesc prCounts.2
    comments_by_repo := sortedDesc commentCounts.1
    comments_by_person := sortedDesc commentCounts.2 }

/-- The comment count a single review contributes: its `comments.totalCount`
when its timestamp lies in the window, zero otherwise. -/
def inWindowCount (since_str until_str : String) (r : Review) : Nat :=
  if strLe since_str (r.createdAt.getD "") && strLe (r.createdAt.getD "") until_str then
    r.comment_count
  else 0

theorem sumVals_bump (m : List (String × Nat)) (k : String) (v : Nat) :
    sumVals (bump m k v) = sumVals m + v := by
  induction m with
  | nil => simp [bump, sumVals]
  | cons hd tl ih =>
    obtain ⟨k', v'⟩ := hd
    by_cases h : k' = k <;> (simp [bump, h, sumVals] at ih ⊢; omega)

theorem sumVals_insertDesc (x : String × Nat) (l : List (String × Nat)) :
    sumVals (insertDesc x l) = x.2 + sumVals l := by
  induction l with
  | nil => simp [insertDesc, sumVals]
  | cons y ys ih =>
    simp only [insertDesc]
    split
    · simp [sumVals] at ih ⊢
      omega
    · simp [sumVals]

theorem sumVals_sortedDesc (m : List (String × Nat)) :
    sumVals (sortedDesc m) = sumVals m := by
  induction m with
  | nil => rfl
  | cons x xs ih =>
    simp only [sortedDesc, List.foldr_cons] at ih ⊢
    rw [sumVals_insertDesc]
    simp [sumVals] at ih ⊢
    omega

theorem foldl_procCreated_sums (l : List CreatedPR)
    (acc : List (String × Nat) × List (String × Nat)) :
    sumVals (l.foldl procCreated acc).1 = sumVals acc.1 + l.length ∧
    sumVals (l.foldl procCreated acc).2 = sumVals acc.2 + l.length := by
  induction l generalizing acc with
  | nil => simp
  | cons pr rest ih =>
    simp only [List.foldl_cons, List.length_cons]
    have h := ih (procCreated acc pr)
    have e1 : sumVals (procCreated acc pr).1 = sumVals acc.1 + 1 := by
      simp [procCreated, sumVals_bump]
    have e2 : sumVals (procCreated acc pr).2 = sumVals acc.2 + 1 := by
      simp [procCreated, sumVals_bump]
    omega

theorem foldl_procReview_sums (s u repo : String) (rs : List Review)
    (acc : List (String × Nat) × List (String × Nat)) :
    sumVals (rs.foldl (procReview s u repo) acc).1 =
      sumVals acc.1 + (rs.map (inWindowCount s u)).sum ∧
    sumVals (rs.foldl (procReview s u repo) acc).2 =
      sumVals acc.2 + (rs.map (inWindowCount s u)).sum := by
  induction rs generalizing acc with
  | nil => simp
  | cons r rest ih =>
    simp only [List.foldl_cons, List.map_cons, List.sum_cons]
    have h := ih (procReview s u repo acc r)
    have e1 : sumVals (procReview s u repo acc r).1 =
        sumVals acc.1 + inWindowCount s u r := by
      by_cases hc :
          (strLe s (r.createdAt.getD "") && strLe (r.createdAt.getD "") u) = true <;>
        simp [procReview, inWindowCount, hc, sumVals_bump]
    have e2 : sumVals (procReview s u repo acc r).2 =
        sumVals acc.2 + inWindowCount s u r := by
      by_cases hc :
          (strLe s (r.createdAt.getD "") && strLe (r.createdAt.getD "") u) = true <;>
        simp [procReview, inWindowCount, hc, sumVals_bump]
    omega

theorem foldl_procUpdated_sums (s u : String) (prs : List ReviewPR)
    (acc : List (String × Nat) × List (String × Nat)) :
    sumVals (prs.foldl (procUpdated s u) acc).1 =
      sumVals acc.1 + (prs.map (fun pr => (pr.reviews.map (inWindowCount s u)).sum)).sum ∧
    sumVals (prs.foldl (procUpdated s u) acc).2 =
      sumVals acc.2 + (prs.map (fun pr => (pr.reviews.map (inWindowCount s u)).sum)).sum := by
  induction prs generalizing acc with
  | nil => simp
  | cons pr rest ih =>
    simp only [List.foldl_cons, List.map_cons, List.sum_cons]
    have h := ih (procUpdated s u acc pr)
    have h2 := foldl_procReview_sums s u pr.repo pr.reviews acc
    simp only [procUpdated] at h ⊢
    omega

/-- C5: per-repository and per-person counters both sum to the grand totals —
`total_prs` equals the number of created-PR records, and both comment maps sum
to `total_comments`. -/
theorem aggregate_totals_invariant (created : List CreatedPR)
    (updated : List ReviewPR) (s u : String) :
    sumVals (aggregate created updated s u).pr_by_repo = created.length ∧
    sumVals (aggregate created updated s u).pr_by_person = created.length ∧
    (aggregate created updated s u).total_prs = created.length ∧
    sumVals (aggregate created updated s u).comments_by_repo =
      (aggregate created updated s u).total_comments ∧
    sumVals (aggregate created updated s u).comments_by_person =
      (aggregate created updated s u).total_comments := by
  have hc := foldl_procCreated_sums created ([], [])
  have hu := foldl_procUpdated_sums s u updated ([], [])
  simp only [aggregate, sumVals_sortedDesc]
  simp [sumVals] at hc hu ⊢
  omega

/-- C1: a single review contributes its `comment_count` to the total and to
both comment maps exactly when `since_str <= created_at <= until_str` holds as
a string comparison (inclusive on both boundaries); strictly outside the
window it contributes zero to every comment counter. -/
theorem aggregate_window_inclusive (s u repo : String) (rv : Review) :
    ((strLe s (rv.createdAt.getD "") && strLe (rv.createdAt.getD "") u) = true →
      (aggregate [] [⟨repo, [rv]⟩] s u).total_comments = rv.comment_count ∧
      (aggregate [] [⟨repo, [rv]⟩] s u).comments_by_repo = [(repo, rv.comment_count)] ∧
      (aggregate [] [⟨repo, [rv]⟩] s u).comments_by_person =
        [(rv.author.getD "ghost", rv.comment_count)]) ∧
    ((strLe s (rv.createdAt.getD "") && strLe (rv.createdAt.getD "") u) = false →
      (aggregate [] [⟨repo, [rv]⟩] s u).total_comments = 0 ∧
      (aggregate [] [⟨repo, [rv]⟩] s u).comments_by_repo = [] ∧
      (aggregate [] [⟨repo, [rv]⟩] s u).comments_by_person = []) := by
  constructor <;> intro h <;>
    simp [aggregate, procUpdated, procReview, h, bump, sortedDesc, insertDesc, sumVals]

/-- Witness for C1 at the inclusive lower boundary: a review whose timestamp
equals the window start is counted; the same review dated strictly before the
window start is not. -/
theorem aggregate_window_inclusive_witness :
    (aggregate [] [⟨"x", [⟨some "bob", some "2025-01-03T07:00:00Z", 5⟩]⟩]
        "2025-01-03T07:00:00Z" "2025-01-10T07:00:00Z").total_comments = 5 ∧
      (aggregate [] [⟨"x", [⟨some "bob", some "2025-01-03T07:00:00Z", 5⟩]⟩]
        "2025-01-03T07:00:00Z" "2025-01-10T07:00:00Z").comments_by_repo = [("x", 5)] ∧
      (aggregate [] [⟨"x", [⟨some "bob", some "2025-01-03T07:00:00Z", 5⟩]⟩]
        "2025-01-03T07:00:00Z" "2025-01-10T07:00:00Z").comments_by_person = [("bob", 5)] :=
  (aggregate_window_inclusive "2025-01-03T07:00:00Z" "2025-01-10T07:00:00Z" "x"
    ⟨some "bob", some "2025-01-03T07:00:00Z", 5⟩).1 (by decide)

/-- C6: the end-to-end scenario — two created PRs on repo `x` (one with a null
author, mapped to `"ghost"`), plus one review-bearing PR with an in-window
3-comment review and a before-window 9-comment review by `bob`. -/
theorem aggregate_end_to_end :
    aggregate [⟨"x", some "alice"⟩, ⟨"x", none⟩]
      [⟨"x", [⟨some "bob", some "2025-01-05T00:00:00Z", 3⟩,
              ⟨some "bob", some "2024-12-31T00:00:00Z", 9⟩]⟩]
      "2025-01-03T07:00:00Z" "2025-01-10T07:00:00Z" =
    ⟨2, 3, [("x", 2)], [("alice", 1), ("ghost", 1)], [("x", 3)], [("bob", 3)]⟩ := by
  decide

theorem charListLe_nil_right (l : List Char) : charListLe l [] = true ↔ l = [] := by
  cases l <;> simp [charListLe]

theorem strLe_empty_right (s : String) (h : s ≠ "") : strLe s "" = false := by
  obtain ⟨l⟩ := s
  cases l with
  | nil => exact absurd (by decide) h
  | cons c cs =>
    simp only [strLe]
    rw [Bool.eq_false_iff]
    intro hc
    exact absurd ((charListLe_nil_right _).mp hc) (by simp)

/-- C10: a review whose `createdAt` field is absent defaults to the empty
string, which fails the window comparison for any non-empty `since_str` (every
real window start is a 20-character formatted date), so the review is skipped:
the loop body leaves the counters unchanged and the aggregate has zero in
every comment counter. -/
theorem aggregate_missing_createdAt_skipped (s u repo : String)
    (author : Option String) (count : Nat)
    (acc : List (String × Nat) × List (String × Nat)) (hs : s ≠ "") :
    procReview s u repo acc ⟨author, none, count⟩ = acc ∧
    (aggregate [] [⟨repo, [⟨author, none, count⟩]⟩] s u).total_comments = 0 ∧
    (aggregate [] [⟨repo, [⟨author, none, count⟩]⟩] s u).comments_by_repo = [] ∧
    (aggregate [] [⟨repo, [⟨author, none, count⟩]⟩] s u).comments_by_person = [] := by
  have hf : strLe s "" = false := strLe_empty_right s hs
  refine ⟨?_, ?_, ?_, ?_⟩ <;>
    simp [procReview, aggregate, procUpdated, hf, sortedDesc, sumVals]

/-- Witness for C10: a `createdAt`-less review against a real formatted window
leaves the accumulator untouched and yields an all-zero comment aggregate. -/
theorem aggregate_missing_createdAt_skipped_witness :
    procReview "2025-01-03T07:00:00Z" "2025-01-10T07:00:00Z" "x" ([], [])
        ⟨some "bob", none, 7⟩ = ([], []) ∧
      (aggregate [] [⟨"x", [⟨some "bob", none, 7⟩]⟩]
        "2025-01-03T07:00:00Z" "2025-01-10T07:00:00Z").total_comments = 0 ∧
      (aggregate [] [⟨"x", [⟨some "bob", none, 7⟩]⟩]
        "2025-01-03T07:00:00Z" "2025-01-10T07:00:00Z").comments_by_repo = [] ∧
      (aggregate [] [⟨"x", [⟨some "bob", none, 7⟩]⟩]
        "2025-01-03T07:00:00Z" "2025-01-10T07:00:00Z").comments_by_person = [] :=
  aggregate_missing_createdAt_skipped "2025-01-03T07:00:00Z" "2025-01-10T07:00:00Z"
    "x" (some "bob") 7 ([], []) (by decide)

/-! ## Ranking text (`ranking`, source lines 161-166) -/

/-- One output line `f"{i}. {name}: {count}{unit}"` (source line 166). -/
def rankingLine (i : Nat) (name : String) (count : Nat) (unit : String) : String :=
  toString i ++ ". " ++ name ++ ": " ++ toString count ++ unit

/-- Python `enumerate(items, 1)` mapped through `rankingLine`. -/
def numberLines (unit : String) : Nat → List (String × Nat) → List String
  | _, [] => []
  | i, (name, count) :: rest => rankingLine i name count unit :: numberLines unit (i + 1) rest

/-- Function `ranking(data, unit="건", limit=10)` (source lines 161-166): take the first
`limit` entries, render `"활동 없음"` when none remain, otherwise join the
numbered lines. -/
def ranking (data : List (String × Nat)) (unit : String) (limit : Nat) : String :=
  let items := data.take limit
  if items.isEmpty then "활동 없음"
  else String.intercalate "\n" (numberLines unit 1 items)

/-- C7: ranked rendering is stable-descending (ties in first-seen order, shown
on the `{A:5, B:5, C:2}` example discovered as A, C, B), ignores everything past
the first 10 entries, truncates a 12-entry map to 10 lines, and renders an
empty map as the fixed no-activity sentinel. -/
theorem ranking_stable_top10_empty :
    sortedDesc [("A", 5), ("C", 2), ("B", 5)] = [("A", 5), ("B", 5), ("C", 2)] ∧
    ranking (sortedDesc [("A", 5), ("C", 2), ("B", 5)]) "건" 10 =
      "1. A: 5건\n2. B: 5건\n3. C: 2건" ∧
    ranking [] "건" 10 = "활동 없음" ∧
    (∀ data : List (String × Nat), ∀ unit : String,
      ranking data unit 10 = ranking (data.take 10) unit 10) ∧
    ranking [("r01", 12), ("r02", 11), ("r03", 10), ("r04", 9), ("r05", 8),
        ("r06", 7), ("r07", 6), ("r08", 5), ("r09", 4), ("r10", 3),
        ("r11", 2), ("r12", 1)] "건" 10 =
      "1. r01: 12건\n2. r02: 11건\n3. r03: 10건\n4. r04: 9건\n5. r05: 8건\n" ++
        "6. r06: 7건\n7. r07: 6건\n8. r08: 5건\n9. r09: 4건\n10. r10: 3건" := by
  refine ⟨by decide, by decide, by decide, ?_, by decide⟩
  intro data unit
  simp [ranking, List.take_take]

/-! ## Pagination (`_paginate_search`, source lines 105-119) -/

/-- One page of the simulated search API: `search["nodes"]` (null nodes are
dropped by `[n for n in search["nodes"] if n]`) and
`search["pageInfo"]["hasNextPage"]`.  The continuation cursor is opaque and
only threads to the next scripted page, so it needs no field. -/
structure Page (α : Type) where
  nodes : List (Option α)
  hasNextPage : Bool
deriving DecidableEq

/-- The `while True` loop of `_paginate_search`, driven by the scripted list of
remaining pages: extend the accumulator with the page's non-null nodes; stop
without warning when `hasNextPage` is false; stop with the truncation warning
once at least 1000 records have accumulated.  The second component is the
warning flag.  (An exhausted script with `hasNextPage` still true cannot occur:
the live API always answers.) -/
def paginateGo {α : Type} : List (Page α) → List α → List α × Bool
  | [], acc => (acc, false)
  | p :: rest, acc =>
    let acc2 := acc ++ p.nodes.filterMap id
    if !p.hasNextPage then (acc2, false)
    else if 1000 ≤ acc2.length then (acc2, true)
    else paginateGo rest acc2

/-- Function `_paginate_search(query, search_q)` over a scripted page sequence. -/
def paginate_search {α : Type} (pages : List (Page α)) : List α × Bool :=
  paginateGo pages []

/-- A page of 100 non-null records with a next page available. -/
def fullPage : Page Nat := ⟨List.replicate 100 (some 0), true⟩

theorem filterMap_id_replicate_some (n : Nat) :
    (List.replicate n (some (0 : Nat))).filterMap id = List.replicate n 0 := by
  induction n with
  | zero => rfl
  | succ k ih => simp [List.replicate_succ, ih]

theorem fullPage_filterMap : fullPage.nodes.filterMap id = List.replicate 100 0 := by
  simp [fullPage, filterMap_id_replicate_some]

/-- One loop iteration that neither exhausts the pages nor hits the cap. -/
theorem paginateGo_cons_step (p : Page Nat) (rest : List (Page Nat)) (acc : List Nat)
    (hnext : p.hasNextPage = true)
    (hlen : (acc ++ p.nodes.filterMap id).length < 1000) :
    paginateGo (p :: rest) acc = paginateGo rest (acc ++ p.nodes.filterMap id) := by
  simp only [paginateGo, hnext, Bool.not_true, Bool.false_eq_true, if_false]
  rw [if_neg (by omega)]

/-- The loop stops with the truncation warning when a page keeps
`hasNextPage` true and pushes the accumulator to 1000 or more records. -/
theorem paginateGo_stop_cap (p : Page Nat) (rest : List (Page Nat)) (acc : List Nat)
    (hnext : p.hasNextPage = true)
    (hlen : 1000 ≤ (acc ++ p.nodes.filterMap id).length) :
    paginateGo (p :: rest) acc = (acc ++ p.nodes.filterMap id, true) := by
  simp only [paginateGo, hnext, Bool.not_true, Bool.false_eq_true, if_false]
  rw [if_pos hlen]

/-- The loop stops without warning on a page with no next page. -/
theorem paginateGo_stop_last (p : Page Nat) (rest : List (Page Nat)) (acc : List Nat)
    (hnext : p.hasNextPage = false) :
    paginateGo (p :: rest) acc = (acc ++ p.nodes.filterMap id, false) := by
  simp only [paginateGo, hnext, Bool.not_false, if_true]

theorem paginateGo_full (k : Nat) (rest : List (Page Nat)) (acc : List Nat)
    (h : acc.length + k * 100 ≤ 999) :
    paginateGo (List.replicate k fullPage ++ rest) acc =
      paginateGo rest (acc ++ List.replicate (k * 100) 0) := by
  induction k generalizing acc with
  | zero => simp
  | succ n ih =>
    rw [List.replicate_succ, List.cons_append,
      paginateGo_cons_step fullPage _ acc rfl (by rw [fullPage_filterMap]; simp; omega),
      fullPage_filterMap, ih (acc ++ List.replicate 100 0) (by simp; omega),
      List.append_assoc, ← List.replicate_add]
    have e : 100 + n * 100 = (n + 1) * 100 := by ring
    rw [e]

/-- C2: ten consecutive full pages that all report a next page yield exactly
1000 collected records with the truncation warning (whatever the script holds
beyond them), while a final short page reporting no next page terminates with
all accumulated records and no warning. -/
theorem paginate_cap_and_clean_stop (rest : List (Page Nat)) :
    paginate_search (List.replicate 10 fullPage ++ rest) =
      (List.replicate 1000 0, true) ∧
    paginate_search (List.replicate 9 fullPage ++
        (⟨List.replicate 37 (some 0), false⟩ : Page Nat) :: rest) =
      (List.replicate 937 0, false) := by
  have h10 : List.replicate 10 fullPage = List.replicate 9 fullPage ++ [fullPage] := by
    decide
  constructor
  · show paginateGo _ [] = _
    rw [h10, List.append_assoc, paginateGo_full 9 _ [] (by simp),
      List.nil_append, List.singleton_append,
      paginateGo_stop_cap fullPage rest _ rfl (by
        rw [fullPage_filterMap]
        simp only [List.length_append, List.length_replicate]
        omega),
      fullPage_filterMap, ← List.replicate_add]
  · show paginateGo _ [] = _
    rw [paginateGo_full 9 _ [] (by simp), List.nil_append,
      paginateGo_stop_last _ rest _ rfl]
    have e : (Page.mk (List.replicate 37 (some 0)) false).nodes.filterMap id =
        List.replicate 37 0 := filterMap_id_replicate_some 37
    rw [e, ← List.replicate_add]

theorem paginateGo_length_bound (pages : List (Page Nat)) (acc : List Nat)
    (hp : ∀ p ∈ pages, (p.nodes.filterMap id).length ≤ 100)
    (ha : acc.length ≤ 999) :
    (paginateGo pages acc).1.length ≤ 1099 := by
  induction pages generalizing acc with
  | nil => simpa [paginateGo] using by omega
  | cons p rest ih =>
    have hph := hp p (List.mem_cons_self p rest)
    have hrest : ∀ q ∈ rest, (q.nodes.filterMap id).length ≤ 100 := fun q hq =>
      hp q (List.mem_cons_of_mem p hq)
    simp only [paginateGo]
    by_cases h1 : (!p.hasNextPage) = true
    · simp only [h1, if_true]
      simp
      omega
    · simp only [h1, Bool.false_eq_true, if_false]
      by_cases h2 : 1000 ≤ (acc ++ p.nodes.filterMap id).length
      · simp only [h2, if_pos]
        simp
        omega
      · rw [if_neg h2]
        exact ih _ hrest (by simp at h2 ⊢; omega)

/-- C9: whenever every page contributes at most 100 non-null records, the
collected list has at most 1099 entries; and a page sequence with a null node
does overshoot the cap, since the 1000-record check only runs after a whole
page has been appended. -/
theorem paginate_length_bound :
    (∀ pages : List (Page Nat),
      (∀ p ∈ pages, (p.nodes.filterMap id).length ≤ 100) →
      (paginate_search pages).1.length ≤ 1099) ∧
    ∃ pages : List (Page Nat),
      (∀ p ∈ pages, (p.nodes.filterMap id).length ≤ 100) ∧
      1000 < (paginate_search pages).1.length := by
  constructor
  · intro pages hp
    exact paginateGo_length_bound pages [] hp (by simp)
  · refine ⟨(⟨List.replicate 99 (some 0) ++ [none], true⟩ : Page Nat) ::
      List.replicate 10 fullPage, ?_, ?_⟩
    · intro p hp
      rcases List.mem_cons.mp hp with h | h
      · subst h
        simp [filterMap_id_replicate_some]
      · rw [List.eq_of_mem_replicate h]
        simp [fullPage, filterMap_id_replicate_some]
    · show 1000 < (paginateGo _ []).1.length
      have h10 : List.replicate 10 fullPage = List.replicate 9 fullPage ++ [fullPage] := by
        decide
      have e0 : (Page.mk (List.replicate 99 (some 0) ++ [none]) true).nodes.filterMap id =
          List.replicate 99 0 := by
        simp [List.filterMap_append, filterMap_id_replicate_some]
      rw [paginateGo_cons_step _ _ [] rfl (by rw [e0]; simp), e0, List.nil_append,
        h10, paginateGo_full 9 _ _ (by simp),
        paginateGo_stop_cap fullPage [] _ rfl (by
          rw [fullPage_filterMap]
          simp only [List.length_append, List.length_replicate]
          omega),
        fullPage_filterMap]
      simp only [List.length_append, List.length_replicate]
      omega

/-- Witness for C9: a single short final page obeys the 1099 bound. -/
theorem paginate_length_bound_witness :
    (paginate_search [(⟨[some 0], false⟩ : Page Nat)]).1.length ≤ 1099 :=
  paginate_length_bound.1 [⟨[some 0], false⟩] (by decide)

/-! ## Configuration and exit behaviour (`main`, `graphql`, `send_slack`) -/

/-- A network call made during a run: a GraphQL search request (`graphql`,
source line 33) or the Slack message post (`send_slack`, source line 239). -/
inductive NetEvent where
  | query
  | slack
deriving DecidableEq

/-- Exit code of a run together with the network calls it performed, in order. -/
structure RunResult where
  exitCode : Nat
  events : List NetEvent
deriving DecidableEq

/-- Control-flow model of `main` (source lines 247-267) restricted to
environment reads, network calls and exit codes.  `ORG_NAME` is checked first
(`if not org`, line 249 — absent or empty is fatal, no network).  The first
`graphql` call reads `os.environ["GH_TOKEN"]` (line 23) before opening any
connection: a missing token raises `KeyError` and the process dies with exit
code 1 and zero network events.  Otherwise both searches run (scripted here as
one successful page each, hence two query events).  `send_slack` then reads
`SLACK_BOT_TOKEN` and `SLACK_CHANNEL_ID` (lines 171-172) — a missing one
raises `KeyError` after the query traffic — and finally posts to Slack, whose
non-ok answer (`slackOk` false) exits 1 (lines 241-243). -/
def mainModel (env : String → Option String) (slackOk : Bool) : RunResult :=
  match env "ORG_NAME" with
  | none => ⟨1, []⟩
  | some org =>
    if org = "" then ⟨1, []⟩
    else
      match env "GH_TOKEN" with
      | none => ⟨1, []⟩
      | some _ =>
        match env "SLACK_BOT_TOKEN" with
        | none => ⟨1, [NetEvent.query, NetEvent.query]⟩
        | some _ =>
          match env "SLACK_CHANNEL_ID" with
          | none => ⟨1, [NetEvent.query, NetEvent.query]⟩
          | some _ =>
            if slackOk then ⟨0, [NetEvent.query, NetEvent.query, NetEvent.slack]⟩
            else ⟨1, [NetEvent.query, NetEvent.query, NetEvent.slack]⟩

/-- An environment with the organization name and the GitHub token but neither
Slack value. -/
def envNoSlack : String → Option String := fun s =>
  if s = "ORG_NAME" then some "demodev-lab"
  else if s = "GH_TOKEN" then some "tok"
  else none

/-- Counterexample to C8 as stated: with `SLACK_BOT_TOKEN` (a required chat
credential) absent, the run does exit 1, but only after both GraphQL searches
have gone over the network — the failure is not reported before network
activity. -/
theorem config_missing_not_before_network :
    envNoSlack "SLACK_BOT_TOKEN" = none ∧
    (mainModel envNoSlack true).exitCode = 1 ∧
    (mainModel envNoSlack true).events = [NetEvent.query, NetEvent.query] := by
  decide

/-- C8 (amended): every absent required value makes the run exit 1; a missing
organization name or GitHub token is reported before any network activity,
while a missing Slack credential or channel id is only hit after the two
GraphQL query calls — but still before any chat delivery call. -/
theorem config_missing_fatal (env : String → Option String) (slackOk : Bool) :
    (env "ORG_NAME" = none → mainModel env slackOk = ⟨1, []⟩) ∧
    (env "ORG_NAME" = some "" → mainModel env slackOk = ⟨1, []⟩) ∧
    (env "GH_TOKEN" = none → (∀ o, env "ORG_NAME" = some o → o ≠ "") →
      mainModel env slackOk = ⟨1, []⟩) ∧
    (env "SLACK_BOT_TOKEN" = none → (mainModel env slackOk).exitCode = 1 ∧
      NetEvent.slack ∉ (mainModel env slackOk).events) ∧
    (env "SLACK_CHANNEL_ID" = none → (mainModel env slackOk).exitCode = 1 ∧
      NetEvent.slack ∉ (mainModel env slackOk).events) := by
  refine ⟨?_, ?_, ?_, ?_, ?_⟩ <;> intro h
  · simp [mainModel, h]
  · simp [mainModel, h]
  · intro ho
    cases horg : env "ORG_NAME" with
    | none => simp [mainModel, horg]
    | some o =>
      by_cases he : o = ""
      · simp [mainModel, horg, he]
      · simp [mainModel, horg, he, h]
  · cases horg : env "ORG_NAME" with
    | none => simp [mainModel, horg]
    | some o =>
      by_cases he : o = ""
      · simp [mainModel, horg, he]
      · cases hgh : env "GH_TOKEN" with
        | none => simp [mainModel, horg, he, hgh]
        | some _ => simp [mainModel, horg, he, hgh, h]
  · cases horg : env "ORG_NAME" with
    | none => simp [mainModel, horg]
    | some o =>
      by_cases he : o = ""
      · simp [mainModel, horg, he]
      · cases hgh : env "GH_TOKEN" with
        | none => simp [mainModel, horg, he, hgh]
        | some _ =>
          cases hsb : env "SLACK_BOT_TOKEN" with
          | none => simp [mainModel, horg, he, hgh, hsb]
          | some _ => simp [mainModel, horg, he, hgh, hsb, h]

/-- Witness for the amended C8: the all-absent environment exits 1 with no
network events, and `envNoSlack` (missing only the Slack values) exits 1
without ever reaching the chat call. -/
theorem config_missing_fatal_witness :
    mainModel (fun _ => none) true = ⟨1, []⟩ ∧
    (mainModel envNoSlack true).exitCode = 1 ∧
    NetEvent.slack ∉ (mainModel envNoSlack true).events :=
  ⟨(config_missing_fatal (fun _ => none) true).1 rfl,
    (config_missing_fatal envNoSlack true).2.2.2.1 rfl⟩

end WeeklyReport
